import Mathlib

/-!
Shallow embedding of the banking-system core: the account classes
(`BankAccount`, `SavingsAccount`, `CreditAccount`), their deposit /
withdraw / interest operations, the two-account transfer protocol and
the per-variant account-number allocation, translated from the source
files `src/accounts/base_account.py`, `src/accounts/savings_account.py`,
`src/accounts/credit_account.py` and `src/account_operations.py`.
Currency amounts are modelled as rationals; the operational structure
(branch order, mutation-then-log order, returned status) follows the
source line by line.
-/

namespace Banking

/-- One row of an account's transaction log, as written by
`BankAccount._log_transaction`: the label, the signed amount and the
balance at the moment of logging (the code logs after mutating, so this
is the post-mutation balance).  The date/time columns carry no logic and
are omitted. -/
structure Entry where
  label : String
  amount : ℚ
  balance : ℚ
deriving DecidableEq, Repr

/-- The state of `BankAccount` that the operations touch: identity,
holder name, balance and the account's transaction log. -/
structure BankAccount where
  account_number : ℤ
  holder_name : String
  balance : ℚ
  ledger : List Entry
deriving DecidableEq, Repr

/-- `BankAccount._log_transaction`: append one row recording the label,
the signed amount and the current (post-mutation) balance. -/
def BankAccount.logTransaction (a : BankAccount) (label : String) (amount : ℚ) :
    BankAccount :=
  { a with ledger := a.ledger ++ [⟨label, amount, a.balance⟩] }

/-- `BankAccount.deposit`: reject non-positive amounts, otherwise add to
the balance and log a "Deposit" row.  Returns the updated account and
the success flag. -/
def BankAccount.deposit (a : BankAccount) (amount : ℚ) : BankAccount × Bool :=
  if amount ≤ 0 then (a, false)
  else
    let a1 := { a with balance := a.balance + amount }
    (a1.logTransaction "Deposit" amount, true)

/-- `BankAccount.withdraw`: reject non-positive amounts and amounts
exceeding the balance, otherwise subtract and log a "Withdrawal" row. -/
def BankAccount.withdraw (a : BankAccount) (amount : ℚ) : BankAccount × Bool :=
  if amount ≤ 0 ∨ a.balance < amount then (a, false)
  else
    let a1 := { a with balance := a.balance - amount }
    (a1.logTransaction "Withdrawal" (-amount), true)

/-- `SavingsAccount.MIN_WITHDRAWAL_AMOUNT` (Rs. 50.00). -/
def MIN_WITHDRAWAL_AMOUNT : ℚ := 50

/-- `SavingsAccount.WITHDRAWAL_FEE` (Rs. 5.00). -/
def WITHDRAWAL_FEE : ℚ := 5

/-- `CreditAccount.MIN_CASH_ADVANCE_AMOUNT` (Rs. 500.00). -/
def MIN_CASH_ADVANCE_AMOUNT : ℚ := 500

/-- `MONTHS_PER_YEAR` (12), shared by both variants. -/
def MONTHS_PER_YEAR : ℚ := 12

/-- `SavingsAccount`: the inherited `BankAccount` state plus the
variant-specific fields. -/
structure SavingsAccount where
  base : BankAccount
  interest_rate : ℚ
  min_balance : ℚ
deriving DecidableEq, Repr

/-- `CreditAccount`: the inherited `BankAccount` state plus the
variant-specific fields. -/
structure CreditAccount where
  base : BankAccount
  credit_limit : ℚ
  debt_interest_rate : ℚ
  cash_advance_fee : ℚ
deriving DecidableEq, Repr

/-- `SavingsAccount.withdraw`: minimum-amount check, fee-inclusive
minimum-balance check, then the inherited `BankAccount.withdraw`; on
success without `skip_fee` the Rs. 5 fee is deducted and logged as a
separate "Withdrawal Fee" row.  The returned flag is the inherited
withdrawal's flag. -/
def SavingsAccount.withdraw (a : SavingsAccount) (amount : ℚ) (skip_fee : Bool) :
    SavingsAccount × Bool :=
  if amount < MIN_WITHDRAWAL_AMOUNT then (a, false)
  else
    let fee_amount : ℚ := if skip_fee then 0 else WITHDRAWAL_FEE
    let total_deduction := amount + fee_amount
    if a.base.balance - total_deduction < a.min_balance then (a, false)
    else
      let p := a.base.withdraw amount
      let a1 : SavingsAccount := { a with base := p.1 }
      if p.2 && !skip_fee then
        let b2 := { a1.base with balance := a1.base.balance - WITHDRAWAL_FEE }
        ({ a1 with base := b2.logTransaction "Withdrawal Fee" (-WITHDRAWAL_FEE) }, p.2)
      else
        (a1, p.2)

/-- `SavingsAccount.apply_interest`: deposit `balance * (rate / 12)`
through the normal deposit path (its success flag is ignored). -/
def SavingsAccount.applyInterest (a : SavingsAccount) : SavingsAccount :=
  let monthly_rate := a.interest_rate / MONTHS_PER_YEAR
  let interest_amount := a.base.balance * monthly_rate
  { a with base := (a.base.deposit interest_amount).1 }

/-- `CreditAccount.withdraw` (cash advance): minimum-amount check,
fee-inclusive credit-limit check, then two separate deductions each
with its own log row ("Withdrawal" and "Cash Advance Fee"). -/
def CreditAccount.withdraw (a : CreditAccount) (amount : ℚ) :
    CreditAccount × Bool :=
  if amount < MIN_CASH_ADVANCE_AMOUNT then (a, false)
  else
    let fee := amount * a.cash_advance_fee
    let total_cost := amount + fee
    if a.base.balance - total_cost < -a.credit_limit then (a, false)
    else
      let b0 := { a.base with balance := a.base.balance - amount }
      let b1 := b0.logTransaction "Withdrawal" (-amount)
      let b2 := { b1 with balance := b1.balance - fee }
      let b3 := b2.logTransaction "Cash Advance Fee" (-fee)
      ({ a with base := b3 }, true)

/-- `CreditAccount.apply_debt_interest`: no-op on a non-negative
balance; otherwise deduct `|balance| * (rate / 12)` directly (not via
withdraw) and log it as "Debt Interest Charge". -/
def CreditAccount.applyDebtInterest (a : CreditAccount) : CreditAccount :=
  if 0 ≤ a.base.balance then a
  else
    let monthly_rate := a.debt_interest_rate / MONTHS_PER_YEAR
    let interest_amount := |a.base.balance| * monthly_rate
    let b1 := { a.base with balance := a.base.balance - interest_amount }
    { a with base := b1.logTransaction "Debt Interest Charge" (-interest_amount) }

/-- An account in the collection: the tagged union over the two
concrete classes. -/
inductive Account
  | savings (s : SavingsAccount)
  | credit (c : CreditAccount)
deriving DecidableEq, Repr

/-- The account number of either variant. -/
def Account.number : Account → ℤ
  | .savings s => s.base.account_number
  | .credit c => c.base.account_number

/-- The balance of either variant. -/
def Account.balance : Account → ℚ
  | .savings s => s.base.balance
  | .credit c => c.base.balance

/-- The transaction log of either variant. -/
def Account.ledger : Account → List Entry
  | .savings s => s.base.ledger
  | .credit c => c.base.ledger

/-- `deposit` is not overridden by either subclass: both variants use
`BankAccount.deposit` unchanged. -/
def Account.deposit : Account → ℚ → Account × Bool
  | .savings s, amount =>
      let p := s.base.deposit amount
      (.savings { s with base := p.1 }, p.2)
  | .credit c, amount =>
      let p := c.base.deposit amount
      (.credit { c with base := p.1 }, p.2)

/-- The withdrawal step of `transfer_money`: a Savings source withdraws
with `skip_fee := true`, any other variant with its normal withdraw. -/
def Account.transferWithdraw : Account → ℚ → Account × Bool
  | .savings s, amount =>
      let p := s.withdraw amount true
      (.savings p.1, p.2)
  | .credit c, amount =>
      let p := c.withdraw amount
      (.credit p.1, p.2)

/-- The distinct outcomes of `transfer_money` once both accounts have
been located. -/
inductive TransferResult
  | sameAccount
  | invalidAmount
  | withdrawFailed
  | depositFailedCompensated
  | success
deriving DecidableEq, Repr

/-- `transfer_money` (src/account_operations.py): reject a
same-numbered destination, reject a non-positive amount, withdraw from
the source (fee-skipped for Savings), deposit into the destination, and
on a deposit failure compensate by depositing the amount back into the
source.  Returns the final source account, the final destination
account and the outcome. -/
def transferMoney (src dst : Account) (amount : ℚ) :
    Account × Account × TransferResult :=
  if src.number = dst.number then (src, dst, .sameAccount)
  else if amount ≤ 0 then (src, dst, .invalidAmount)
  else
    let w := src.transferWithdraw amount
    if w.2 = false then (w.1, dst, .withdrawFailed)
    else
      let d := dst.deposit amount
      if d.2 = false then
        let r := w.1.deposit amount
        (r.1, d.1, .depositFailedCompensated)
      else
        (w.1, d.1, .success)

/-- The amount by which a successful transfer shrinks the two-account
total: zero for a Savings source (fee-skipped withdrawal), the cash
advance fee for a Credit source (its normal withdraw charges it). -/
def Account.transferShrink : Account → ℚ → ℚ
  | .savings _, _ => 0
  | .credit c, amount => amount * c.cash_advance_fee

/-! ### Account-number allocation

`BankAccount.__init__` either generates a fresh number from the
variant's class counter (`_generate_account_number`) or accepts an
explicit number and advances the counter past it
(`_update_next_account_number`).  Savings counts from 1200, Credit from
1900, each on its own `ClassVar`. -/

/-- The two concrete account classes, as allocation namespaces. -/
inductive Variant
  | savings
  | credit
deriving DecidableEq, Repr

/-- One account as the allocator sees it: its class, its number, and
whether it was freshly created (as opposed to reloaded from storage). -/
structure AcctRef where
  variant : Variant
  number : ℤ
  freshlyCreated : Bool
deriving DecidableEq, Repr

/-- The process-wide allocation state: one counter per class
(`_next_account_number`) and the in-memory accounts collection. -/
structure Registry where
  savingsNext : ℤ
  creditNext : ℤ
  accounts : List AcctRef
deriving DecidableEq, Repr

/-- The counter of the given variant. -/
def Registry.counter (s : Registry) : Variant → ℤ
  | .savings => s.savingsNext
  | .credit => s.creditNext

/-- Process start: Savings numbers begin at 1200, Credit at 1900, no
accounts yet. -/
def initRegistry : Registry := ⟨1200, 1900, []⟩

/-- The two ways an account enters the collection: fresh creation
(number generated from the counter) or reload from storage (explicit
number). -/
inductive RegEvent
  | fresh (v : Variant)
  | reload (v : Variant) (n : ℤ)
deriving DecidableEq, Repr

/-- One constructor call.  Fresh: take the variant's counter as the
number and increment it.  Reload: keep the explicit number and, if it
is ≥ the counter, set the counter to number + 1
(`_update_next_account_number`). -/
def regStep (s : Registry) : RegEvent → Registry
  | .fresh .savings =>
      { s with savingsNext := s.savingsNext + 1,
               accounts := s.accounts ++ [⟨.savings, s.savingsNext, true⟩] }
  | .fresh .credit =>
      { s with creditNext := s.creditNext + 1,
               accounts := s.accounts ++ [⟨.credit, s.creditNext, true⟩] }
  | .reload .savings n =>
      { s with savingsNext := if s.savingsNext ≤ n then n + 1 else s.savingsNext,
               accounts := s.accounts ++ [⟨.savings, n, false⟩] }
  | .reload .credit n =>
      { s with creditNext := if s.creditNext ≤ n then n + 1 else s.creditNext,
               accounts := s.accounts ++ [⟨.credit, n, false⟩] }

/-- Run a sequence of creations/reloads from process start. -/
def runRegistry (es : List RegEvent) : Registry :=
  es.foldl regStep initRegistry

/-- All account numbers in the collection are pairwise distinct. -/
def pairwiseDistinctNumbers (l : List AcctRef) : Prop :=
  l.Pairwise (fun p q => p.number ≠ q.number)

/-! ### Operation sequences and the ledger invariant -/

/-- One user-level operation on a single account: a deposit, a
withdrawal (with the transfer protocol's fee-skip flag, which
`CreditAccount.withdraw` ignores), or the account's month-end
processing (`apply_interest` for Savings, `apply_debt_interest` for
Credit, as dispatched by `end_of_month_process`). -/
inductive AccOp
  | dep (amount : ℚ)
  | wd (amount : ℚ) (skip_fee : Bool)
  | monthEnd
deriving DecidableEq, Repr

/-- Apply one operation to an account, keeping the resulting state
(failed operations leave the account unchanged). -/
def Account.applyOp (a : Account) : AccOp → Account
  | .dep amount => (a.deposit amount).1
  | .wd amount skip_fee =>
      match a with
      | .savings s => .savings (s.withdraw amount skip_fee).1
      | .credit c => .credit (c.withdraw amount).1
  | .monthEnd =>
      match a with
      | .savings s => .savings s.applyInterest
      | .credit c => .credit c.applyDebtInterest

/-- Apply a whole sequence of operations. -/
def Account.applyOps (a : Account) (ops : List AccOp) : Account :=
  ops.foldl Account.applyOp a

/-- The ledger is a coherent trace from the starting balance `b`: each
row's recorded balance is the previous recorded balance plus the row's
signed amount (so every row accounts for exactly one balance change). -/
def ledgerChain : ℚ → List Entry → Bool
  | _, [] => true
  | b, e :: rest => (e.balance == b + e.amount) && ledgerChain e.balance rest

/-- The balance recorded in the last ledger row, or the starting
balance `b` if no row has been written yet. -/
def lastRecorded (b : ℚ) : List Entry → ℚ
  | [] => b
  | e :: rest => lastRecorded e.balance rest

/-- The audit invariant tying an account to its ledger: the ledger is a
coherent trace from the account's starting balance `b0`, and the last
recorded balance is the current balance. -/
def ledgerInv (b0 : ℚ) (a : Account) : Prop :=
  ledgerChain b0 a.ledger = true ∧ lastRecorded b0 a.ledger = a.balance

/-- Fresh-creation mode of `SavingsAccount.__init__`: the balance is
the initial deposit and the ledger opens with the "Account Created"
row. -/
def mkSavings (number : ℤ) (name : String) (init : ℚ)
    (rate min_bal : ℚ) : SavingsAccount :=
  ⟨⟨number, name, init, [⟨"Account Created", init, init⟩]⟩, rate, min_bal⟩

/-- Fresh-creation mode of `CreditAccount.__init__`. -/
def mkCredit (number : ℤ) (name : String) (init : ℚ)
    (limit debt_rate adv_fee : ℚ) : CreditAccount :=
  ⟨⟨number, name, init, [⟨"Account Created", init, init⟩]⟩, limit, debt_rate, adv_fee⟩

/-- The fee charged by a Savings withdrawal: zero when skipped, Rs. 5
otherwise. -/
def feeOf (skip_fee : Bool) : ℚ := if skip_fee then 0 else WITHDRAWAL_FEE

instance (l : List AcctRef) : Decidable (pairwiseDistinctNumbers l) := by
  unfold pairwiseDistinctNumbers
  infer_instance

instance (b0 : ℚ) (a : Account) : Decidable (ledgerInv b0 a) :=
  inferInstanceAs (Decidable (_ ∧ _))

/-- The ledger invariant at the `BankAccount` level. -/
def bankInv (b0 : ℚ) (a : BankAccount) : Prop :=
  ledgerChain b0 a.ledger = true ∧ lastRecorded b0 a.ledger = a.balance

/-- The allocator invariant: every freshly created account's number is
strictly below its variant's counter, and freshly created accounts of
the same variant have pairwise distinct numbers. -/
def RegInv (s : Registry) : Prop :=
  (∀ p ∈ s.accounts, p.freshlyCreated = true → p.number < s.counter p.variant) ∧
  s.accounts.Pairwise
    (fun p q => p.freshlyCreated = true → q.freshlyCreated = true →
      p.variant = q.variant → p.number ≠ q.number)

/-! ### Characterization lemmas for the operations -/

theorem BankAccount.deposit_eq (a : BankAccount) (amt : ℚ) :
    a.deposit amt =
      if amt ≤ 0 then (a, false)
      else ({ a with balance := a.balance + amt,
                     ledger := a.ledger ++ [⟨"Deposit", amt, a.balance + amt⟩] }, true) :=
  rfl

theorem BankAccount.baseWithdraw_eq (a : BankAccount) (amt : ℚ) :
    a.withdraw amt =
      if amt ≤ 0 ∨ a.balance < amt then (a, false)
      else ({ a with balance := a.balance - amt,
                     ledger := a.ledger ++ [⟨"Withdrawal", -amt, a.balance - amt⟩] }, true) :=
  rfl


theorem SavingsAccount.savingsWithdraw_eq (a : SavingsAccount) (amt : ℚ) (skip : Bool) :
    a.withdraw amt skip =
      if amt < MIN_WITHDRAWAL_AMOUNT ∨ a.base.balance - (amt + feeOf skip) < a.min_balance ∨
          a.base.balance < amt
      then (a, false)
      else ({ a with base := { a.base with
                balance := a.base.balance - (amt + feeOf skip),
                ledger := a.base.ledger ++
                  (⟨"Withdrawal", -amt, a.base.balance - amt⟩ ::
                    (if skip then []
                     else [⟨"Withdrawal Fee", -WITHDRAWAL_FEE,
                            a.base.balance - amt - WITHDRAWAL_FEE⟩])) } }, true) := by
  by_cases h1 : amt < MIN_WITHDRAWAL_AMOUNT
  · rw [if_pos (Or.inl h1)]
    simp only [SavingsAccount.withdraw, if_pos h1]
  · have h0 : ¬ amt ≤ 0 := by
      simp only [MIN_WITHDRAWAL_AMOUNT, not_lt] at h1
      push_neg
      linarith
    by_cases h2 : a.base.balance - (amt + feeOf skip) < a.min_balance
    · rw [if_pos (Or.inr (Or.inl h2))]
      simp only [feeOf] at h2
      cases skip with
      | false =>
        simp only [SavingsAccount.withdraw, if_neg h1, Bool.false_eq_true, ite_false] at h2 ⊢
        rw [if_pos h2]
      | true =>
        simp only [SavingsAccount.withdraw, if_neg h1, ite_true] at h2 ⊢
        rw [if_pos h2]
    · by_cases h3 : a.base.balance < amt
      · rw [if_pos (Or.inr (Or.inr h3))]
        have hbw : a.base.withdraw amt = (a.base, false) := by
          rw [BankAccount.baseWithdraw_eq, if_pos (Or.inr h3)]
        simp only [feeOf] at h2
        cases skip with
        | false =>
          simp only [SavingsAccount.withdraw, if_neg h1, Bool.false_eq_true, ite_false] at h2 ⊢
          rw [if_neg h2]
          simp [hbw]
        | true =>
          simp only [SavingsAccount.withdraw, if_neg h1, ite_true] at h2 ⊢
          rw [if_neg h2]
          simp [hbw]
      · rw [if_neg (fun h => h.elim h1 (fun h => h.elim h2 h3))]
        have hbw : a.base.withdraw amt =
            ({ a.base with balance := a.base.balance - amt,
                           ledger := a.base.ledger ++
                             [⟨"Withdrawal", -amt, a.base.balance - amt⟩] }, true) := by
          rw [BankAccount.baseWithdraw_eq, if_neg (fun h => h.elim h0 h3)]
        simp only [feeOf] at h2
        cases skip with
        | false =>
          simp only [SavingsAccount.withdraw, if_neg h1, Bool.false_eq_true, ite_false,
            feeOf] at h2 ⊢
          rw [if_neg h2]
          simp [hbw, BankAccount.logTransaction, List.append_assoc, sub_sub]
        | true =>
          simp only [SavingsAccount.withdraw, if_neg h1, ite_true, feeOf] at h2 ⊢
          rw [if_neg h2]
          simp [hbw, BankAccount.logTransaction]

theorem CreditAccount.creditWithdraw_eq (a : CreditAccount) (amt : ℚ) :
    a.withdraw amt =
      if amt < MIN_CASH_ADVANCE_AMOUNT ∨
          a.base.balance - (amt + amt * a.cash_advance_fee) < -a.credit_limit
      then (a, false)
      else ({ a with base := { a.base with
                balance := a.base.balance - (amt + amt * a.cash_advance_fee),
                ledger := a.base.ledger ++
                  [⟨"Withdrawal", -amt, a.base.balance - amt⟩,
                   ⟨"Cash Advance Fee", -(amt * a.cash_advance_fee),
                    a.base.balance - amt - amt * a.cash_advance_fee⟩] } }, true) := by
  by_cases h1 : amt < MIN_CASH_ADVANCE_AMOUNT
  · rw [if_pos (Or.inl h1)]
    simp only [CreditAccount.withdraw, if_pos h1]
  · by_cases h2 : a.base.balance - (amt + amt * a.cash_advance_fee) < -a.credit_limit
    · rw [if_pos (Or.inr h2)]
      simp only [CreditAccount.withdraw, if_neg h1]
      rw [if_pos h2]
    · rw [if_neg (fun h => h.elim h1 h2)]
      simp only [CreditAccount.withdraw, if_neg h1]
      rw [if_neg h2]
      simp [BankAccount.logTransaction, List.append_assoc, sub_sub]


theorem lastRecorded_append (b : ℚ) (l : List Entry) (e : Entry) :
    lastRecorded b (l ++ [e]) = e.balance := by
  induction l generalizing b with
  | nil => rfl
  | cons x xs ih => simpa [lastRecorded] using ih x.balance

theorem ledgerChain_append (b : ℚ) (l : List Entry) (e : Entry) :
    ledgerChain b (l ++ [e]) =
      (ledgerChain b l && (e.balance == lastRecorded b l + e.amount)) := by
  induction l generalizing b with
  | nil => simp [ledgerChain, lastRecorded]
  | cons x xs ih => simp [ledgerChain, lastRecorded, ih, Bool.and_assoc]

theorem bankInv_append_one (b0 : ℚ) (a : BankAccount) (e : Entry) (nb : ℚ)
    (h : bankInv b0 a) (h1 : e.balance = a.balance + e.amount) (hnb : nb = e.balance) :
    bankInv b0 { a with balance := nb, ledger := a.ledger ++ [e] } := by
  obtain ⟨hc, hl⟩ := h
  constructor
  · rw [ledgerChain_append]
    simp [hc, hl, h1]
  · rw [lastRecorded_append, hnb]

theorem bankInv_append_two (b0 : ℚ) (a : BankAccount) (e1 e2 : Entry) (nb : ℚ)
    (h : bankInv b0 a) (h1 : e1.balance = a.balance + e1.amount)
    (h2 : e2.balance = e1.balance + e2.amount) (hnb : nb = e2.balance) :
    bankInv b0 { a with balance := nb, ledger := a.ledger ++ [e1, e2] } := by
  obtain ⟨hc, hl⟩ := h
  have hsplit : a.ledger ++ [e1, e2] = (a.ledger ++ [e1]) ++ [e2] := by simp
  constructor
  · rw [hsplit, ledgerChain_append, ledgerChain_append, lastRecorded_append]
    simp [hc, hl, h1, h2]
  · rw [hsplit, lastRecorded_append, hnb]

theorem bankInv_deposit (b0 : ℚ) (a : BankAccount) (amt : ℚ) (h : bankInv b0 a) :
    bankInv b0 (a.deposit amt).1 := by
  rw [BankAccount.deposit_eq]
  split_ifs with hc
  · exact h
  · exact bankInv_append_one b0 a ⟨"Deposit", amt, a.balance + amt⟩ _ h rfl rfl

theorem bankInv_withdraw (b0 : ℚ) (a : BankAccount) (amt : ℚ) (h : bankInv b0 a) :
    bankInv b0 (a.withdraw amt).1 := by
  rw [BankAccount.baseWithdraw_eq]
  split_ifs with hc
  · exact h
  · exact bankInv_append_one b0 a ⟨"Withdrawal", -amt, a.balance - amt⟩ _ h (by ring) rfl

theorem bankInv_savingsWithdraw (b0 : ℚ) (s : SavingsAccount) (amt : ℚ) (skip : Bool)
    (h : bankInv b0 s.base) :
    bankInv b0 ((s.withdraw amt skip).1).base := by
  cases skip with
  | false =>
    rw [SavingsAccount.savingsWithdraw_eq]
    simp only [Bool.false_eq_true, ite_false]
    split_ifs with hc
    · exact h
    · exact bankInv_append_two b0 s.base
        ⟨"Withdrawal", -amt, s.base.balance - amt⟩
        ⟨"Withdrawal Fee", -WITHDRAWAL_FEE, s.base.balance - amt - WITHDRAWAL_FEE⟩
        _ h (by ring) (by ring) (by simp [feeOf, WITHDRAWAL_FEE]; try ring)
  | true =>
    rw [SavingsAccount.savingsWithdraw_eq]
    simp only [ite_true]
    split_ifs with hc
    · exact h
    · exact bankInv_append_one b0 s.base
        ⟨"Withdrawal", -amt, s.base.balance - amt⟩
        _ h (by ring) (by simp [feeOf]; try ring)

theorem bankInv_creditWithdraw (b0 : ℚ) (c : CreditAccount) (amt : ℚ)
    (h : bankInv b0 c.base) :
    bankInv b0 ((c.withdraw amt).1).base := by
  rw [CreditAccount.creditWithdraw_eq]
  split_ifs with hc
  · exact h
  · exact bankInv_append_two b0 c.base
      ⟨"Withdrawal", -amt, c.base.balance - amt⟩
      ⟨"Cash Advance Fee", -(amt * c.cash_advance_fee),
        c.base.balance - amt - amt * c.cash_advance_fee⟩
      _ h (by ring) (by ring) (by ring)

theorem bankInv_applyInterest (b0 : ℚ) (s : SavingsAccount) (h : bankInv b0 s.base) :
    bankInv b0 s.applyInterest.base := by
  simp only [SavingsAccount.applyInterest]
  exact bankInv_deposit b0 s.base _ h

theorem bankInv_applyDebtInterest (b0 : ℚ) (c : CreditAccount) (h : bankInv b0 c.base) :
    bankInv b0 c.applyDebtInterest.base := by
  simp only [CreditAccount.applyDebtInterest]
  split_ifs with hc
  · exact h
  · exact bankInv_append_one b0 c.base
      ⟨"Debt Interest Charge", -(|c.base.balance| * (c.debt_interest_rate / MONTHS_PER_YEAR)),
        c.base.balance - |c.base.balance| * (c.debt_interest_rate / MONTHS_PER_YEAR)⟩
      _ h (by ring) rfl

theorem ledgerInv_def (b0 : ℚ) (a : Account) :
    ledgerInv b0 a ↔ bankInv b0 (match a with | .savings s => s.base | .credit c => c.base) := by
  cases a <;> exact Iff.rfl

theorem ledgerInv_applyOp (b0 : ℚ) (a : Account) (op : AccOp) (h : ledgerInv b0 a) :
    ledgerInv b0 (a.applyOp op) := by
  cases a with
  | savings s =>
    cases op with
    | dep amt =>
      show bankInv b0 ((s.base.deposit amt).1)
      exact bankInv_deposit b0 s.base amt h
    | wd amt skip => exact bankInv_savingsWithdraw b0 s amt skip h
    | monthEnd => exact bankInv_applyInterest b0 s h
  | credit c =>
    cases op with
    | dep amt =>
      show bankInv b0 ((c.base.deposit amt).1)
      exact bankInv_deposit b0 c.base amt h
    | wd amt skip => exact bankInv_creditWithdraw b0 c amt h
    | monthEnd => exact bankInv_applyDebtInterest b0 c h

/-- C7: the audit invariant is preserved by every sequence of account
operations (deposits, withdrawals, month-end interest / fees / debt
charges): each appended ledger row accounts for exactly one balance
change (the ledger is a coherent trace, with a fee-charging withdrawal
contributing its two rows), and the balance recorded in the last ledger
row always equals the account's current balance. -/
theorem ledgerInv_applyOps (ops : List AccOp) (b0 : ℚ) (a : Account)
    (h : ledgerInv b0 a) : ledgerInv b0 (a.applyOps ops) := by
  induction ops generalizing a with
  | nil => exact h
  | cons op rest ih => exact ih (a.applyOp op) (ledgerInv_applyOp b0 a op h)



/-- C4: for either account variant, deposit of a non-positive amount
fails with no change to balance or ledger; a positive deposit succeeds,
increases the balance by exactly the amount, and appends exactly one
"Deposit" ledger row carrying the amount and the resulting balance. -/
theorem deposit_spec (a : Account) (amt : ℚ) :
    (amt ≤ 0 → a.deposit amt = (a, false)) ∧
    (0 < amt →
      (a.deposit amt).2 = true ∧
      (a.deposit amt).1.balance = a.balance + amt ∧
      (a.deposit amt).1.ledger = a.ledger ++ [⟨"Deposit", amt, a.balance + amt⟩]) := by
  constructor
  · intro hle
    cases a <;> simp [Account.deposit, BankAccount.deposit_eq, hle]
  · intro hpos
    have hne : ¬ amt ≤ 0 := not_le.mpr hpos
    cases a <;>
      simp [Account.deposit, BankAccount.deposit_eq, hne, Account.balance, Account.ledger]

theorem deposit_spec_witness :
    (0:ℚ) < 5 ∧
    ((Account.savings (mkSavings 1200 "A" 100 (4/100) 500)).deposit 5).2 = true :=
  ⟨by norm_num,
    ((deposit_spec (Account.savings (mkSavings 1200 "A" 100 (4/100) 500)) 5).2
      (by norm_num)).1⟩

/-- C3: a Credit withdraw succeeds exactly when the amount is at least
Rs. 500 and the fee-inclusive total keeps the balance at or above
minus the credit limit; on success the balance drops by amount + fee
and exactly two separate ledger rows are appended ("Withdrawal" with
-amount, then "Cash Advance Fee" with -fee); on failure the account is
unchanged. -/
theorem credit_withdraw_spec (c : CreditAccount) (amt : ℚ) :
    ((c.withdraw amt).2 = true ↔
      MIN_CASH_ADVANCE_AMOUNT ≤ amt ∧
        -c.credit_limit ≤ c.base.balance - (amt + amt * c.cash_advance_fee)) ∧
    ((c.withdraw amt).2 = true →
      (c.withdraw amt).1.base.balance =
        c.base.balance - (amt + amt * c.cash_advance_fee) ∧
      (c.withdraw amt).1.base.ledger =
        c.base.ledger ++
          [⟨"Withdrawal", -amt, c.base.balance - amt⟩,
           ⟨"Cash Advance Fee", -(amt * c.cash_advance_fee),
            c.base.balance - amt - amt * c.cash_advance_fee⟩]) ∧
    ((c.withdraw amt).2 = false → (c.withdraw amt).1 = c) := by
  rw [CreditAccount.creditWithdraw_eq]
  by_cases h1 : amt < MIN_CASH_ADVANCE_AMOUNT ∨
      c.base.balance - (amt + amt * c.cash_advance_fee) < -c.credit_limit
  · rw [if_pos h1]
    refine ⟨?_, by simp, by simp⟩
    constructor
    · intro hfalse
      exact absurd hfalse (by simp)
    · rintro ⟨ha, hb⟩
      rcases h1 with h1 | h1
      · exact absurd ha (not_le.mpr h1)
      · exact absurd hb (not_le.mpr h1)
  · rw [if_neg h1]
    push_neg at h1
    refine ⟨?_, fun _ => ⟨rfl, rfl⟩, by simp⟩
    simp [h1.1, h1.2]

theorem credit_withdraw_spec_witness :
    ((mkCredit 1900 "B" 0 5000 (15/100) (3/100)).withdraw 500).2 = true ∧
    ((mkCredit 1900 "B" 0 5000 (15/100) (3/100)).withdraw 500).1.base.balance = -515 :=
  by
  have h := credit_withdraw_spec (mkCredit 1900 "B" 0 5000 (15/100) (3/100)) 500
  have hs : ((mkCredit 1900 "B" 0 5000 (15/100) (3/100)).withdraw 500).2 = true :=
    (h.1).mpr (by norm_num [MIN_CASH_ADVANCE_AMOUNT, mkCredit])
  exact ⟨hs, by rw [(h.2.1 hs).1]; norm_num [mkCredit]⟩

/-- C9: applying debt interest to a Credit account with a non-negative
balance changes nothing; with a negative balance it deducts exactly
|balance| * (rate / 12) directly (no minimum-amount floor applies) and
appends one "Debt Interest Charge" ledger row for that amount. -/
theorem debt_interest_spec (c : CreditAccount) :
    (0 ≤ c.base.balance → c.applyDebtInterest = c) ∧
    (c.base.balance < 0 →
      c.applyDebtInterest.base.balance =
        c.base.balance - |c.base.balance| * (c.debt_interest_rate / 12) ∧
      c.applyDebtInterest.base.ledger =
        c.base.ledger ++
          [⟨"Debt Interest Charge",
            -(|c.base.balance| * (c.debt_interest_rate / 12)),
            c.base.balance - |c.base.balance| * (c.debt_interest_rate / 12)⟩]) := by
  constructor
  · intro h
    simp [CreditAccount.applyDebtInterest, h]
  · intro h
    have hn : ¬ 0 ≤ c.base.balance := not_le.mpr h
    refine ⟨?_, ?_⟩ <;>
      simp [CreditAccount.applyDebtInterest, BankAccount.logTransaction, hn, MONTHS_PER_YEAR]

theorem debt_interest_spec_witness :
    (mkCredit 1901 "B" (-100) 5000 (12/100) (3/100)).base.balance < 0 ∧
    (mkCredit 1901 "B" (-100) 5000 (12/100) (3/100)).applyDebtInterest.base.balance = -101 :=
  by
  have h := (debt_interest_spec (mkCredit 1901 "B" (-100) 5000 (12/100) (3/100))).2
    (by norm_num [mkCredit])
  exact ⟨by norm_num [mkCredit], by rw [h.1]; norm_num [mkCredit]⟩



theorem Account.deposit_pos_parts (a : Account) (amt : ℚ) (h : 0 < amt) :
    (a.deposit amt).2 = true ∧ (a.deposit amt).1.balance = a.balance + amt := by
  have hne : ¬ amt ≤ 0 := not_le.mpr h
  cases a <;> simp [Account.deposit, BankAccount.deposit_eq, hne, Account.balance]

/-- C2 (amended): a Savings withdraw succeeds exactly when the amount
is at least Rs. 50, the fee-inclusive deduction keeps the balance at or
above `min_balance`, and additionally the amount does not exceed the
balance (the inherited base withdraw's own funds check, which the
claim's iff omits); on success the balance drops by amount + fee and
the ledger gains a "Withdrawal" row of -amount plus, when the fee is
charged, a "Withdrawal Fee" row of -5; on failure the account is
unchanged. -/
theorem savings_withdraw_spec (s : SavingsAccount) (amt : ℚ) (skip : Bool) :
    ((s.withdraw amt skip).2 = true ↔
      MIN_WITHDRAWAL_AMOUNT ≤ amt ∧
        s.min_balance ≤ s.base.balance - (amt + feeOf skip) ∧
        amt ≤ s.base.balance) ∧
    ((s.withdraw amt skip).2 = true →
      (s.withdraw amt skip).1.base.balance = s.base.balance - (amt + feeOf skip) ∧
      (s.withdraw amt skip).1.base.ledger =
        s.base.ledger ++
          (⟨"Withdrawal", -amt, s.base.balance - amt⟩ ::
            (if skip then []
             else [⟨"Withdrawal Fee", -WITHDRAWAL_FEE,
                    s.base.balance - amt - WITHDRAWAL_FEE⟩]))) ∧
    ((s.withdraw amt skip).2 = false → (s.withdraw amt skip).1 = s) := by
  rw [SavingsAccount.savingsWithdraw_eq]
  by_cases h1 : amt < MIN_WITHDRAWAL_AMOUNT ∨
      s.base.balance - (amt + feeOf skip) < s.min_balance ∨ s.base.balance < amt
  · rw [if_pos h1]
    refine ⟨?_, by simp, by simp⟩
    constructor
    · intro hfalse
      exact absurd hfalse (by simp)
    · rintro ⟨ha, hb, hc⟩
      rcases h1 with h1 | h1 | h1
      · exact absurd ha (not_le.mpr h1)
      · exact absurd hb (not_le.mpr h1)
      · exact absurd hc (not_le.mpr h1)
  · rw [if_neg h1]
    push_neg at h1
    refine ⟨?_, fun _ => ⟨rfl, rfl⟩, by simp⟩
    simp [h1.1, h1.2.1, h1.2.2]

/-- C2 counterexample: for a Savings account whose `min_balance` is
negative, the claim's success condition (amount ≥ 50 and fee-inclusive
deduction above the floor) holds at amount 200 with the fee skipped,
yet the withdrawal fails, because the inherited base withdraw also
requires amount ≤ balance. -/
theorem savings_withdraw_claim_counterexample :
    (MIN_WITHDRAWAL_AMOUNT ≤ (200:ℚ) ∧
      (⟨⟨1201, "X", 100, []⟩, 4/100, -1000⟩ : SavingsAccount).min_balance ≤
        (⟨⟨1201, "X", 100, []⟩, 4/100, -1000⟩ : SavingsAccount).base.balance -
          (200 + feeOf true)) ∧
    ((⟨⟨1201, "X", 100, []⟩, 4/100, -1000⟩ : SavingsAccount).withdraw 200 true).2 = false := by
  refine ⟨⟨by norm_num [MIN_WITHDRAWAL_AMOUNT], by norm_num [feeOf]⟩, ?_⟩
  rw [SavingsAccount.savingsWithdraw_eq, if_pos (Or.inr (Or.inr (by norm_num)))]

theorem savings_withdraw_spec_witness :
    ((mkSavings 1200 "A" 1000 (4/100) 500).withdraw 100 false).2 = true ∧
    ((mkSavings 1200 "A" 1000 (4/100) 500).withdraw 100 false).1.base.balance = 895 := by
  have h := savings_withdraw_spec (mkSavings 1200 "A" 1000 (4/100) 500) 100 false
  have hs : ((mkSavings 1200 "A" 1000 (4/100) 500).withdraw 100 false).2 = true :=
    h.1.mpr (by norm_num [mkSavings, MIN_WITHDRAWAL_AMOUNT, feeOf, WITHDRAWAL_FEE])
  refine ⟨hs, ?_⟩
  rw [(h.2.1 hs).1]
  norm_num [mkSavings, feeOf, WITHDRAWAL_FEE]

/-- C10: a transfer of a positive amount below the source variant's
minimum-withdrawal floor (Rs. 50 for a Savings source even with the fee
skipped, Rs. 500 for a Credit source) fails at the withdrawal step and
returns both accounts unchanged, even though the transfer's own
validation only checks distinct numbers and a positive amount. -/
theorem transfer_below_minimum_fails (s : SavingsAccount) (c : CreditAccount)
    (dst : Account) (amt : ℚ) :
    (0 < amt → amt < MIN_WITHDRAWAL_AMOUNT →
      (Account.savings s).number ≠ dst.number →
      transferMoney (.savings s) dst amt = (.savings s, dst, .withdrawFailed)) ∧
    (0 < amt → amt < MIN_CASH_ADVANCE_AMOUNT →
      (Account.credit c).number ≠ dst.number →
      transferMoney (.credit c) dst amt = (.credit c, dst, .withdrawFailed)) := by
  constructor
  · intro hpos hmin hne
    have hw : s.withdraw amt true = (s, false) := by
      rw [SavingsAccount.savingsWithdraw_eq, if_pos (Or.inl hmin)]
    simp [transferMoney, hne, not_le.mpr hpos, Account.transferWithdraw, hw]
  · intro hpos hmin hne
    have hw : c.withdraw amt = (c, false) := by
      rw [CreditAccount.creditWithdraw_eq, if_pos (Or.inl hmin)]
    simp [transferMoney, hne, not_le.mpr hpos, Account.transferWithdraw, hw]

theorem transfer_below_minimum_fails_witness :
    (0:ℚ) < 30 ∧ (30:ℚ) < MIN_WITHDRAWAL_AMOUNT ∧
    transferMoney (.savings (mkSavings 1200 "A" 1000 (4/100) 500))
        (.credit (mkCredit 1900 "B" 0 5000 (15/100) (3/100))) 30 =
      (.savings (mkSavings 1200 "A" 1000 (4/100) 500),
        .credit (mkCredit 1900 "B" 0 5000 (15/100) (3/100)),
        TransferResult.withdrawFailed) :=
  ⟨by norm_num, by norm_num [MIN_WITHDRAWAL_AMOUNT],
    (transfer_below_minimum_fails (mkSavings 1200 "A" 1000 (4/100) 500)
        (mkCredit 1900 "B" 0 5000 (15/100) (3/100))
        (.credit (mkCredit 1900 "B" 0 5000 (15/100) (3/100))) 30).1
      (by norm_num) (by norm_num [MIN_WITHDRAWAL_AMOUNT]) (by decide)⟩

/-- C6: a deposit of a positive amount into either account variant
always succeeds and changes the balance by exactly that amount, so with
the transfer's amount validated positive at step 2 neither the
destination deposit nor the restorative source deposit can fail; hence
the compensation branch of the transfer protocol is unreachable — no
transfer invocation returns the deposit-failed outcome, and the claimed
"compensation restores the source balance exactly" holds vacuously. -/
theorem transfer_compensation_unreachable :
    (∀ (a : Account) (amt : ℚ), 0 < amt →
      (a.deposit amt).2 = true ∧ (a.deposit amt).1.balance = a.balance + amt) ∧
    (∀ (src dst : Account) (amt : ℚ),
      (transferMoney src dst amt).2.2 ≠ TransferResult.depositFailedCompensated) := by
  refine ⟨Account.deposit_pos_parts, ?_⟩
  intro src dst amt
  by_cases h0 : src.number = dst.number
  · simp [transferMoney, h0]
  · by_cases h1 : amt ≤ 0
    · simp [transferMoney, h0, h1]
    · have hd := (Account.deposit_pos_parts dst amt (not_le.mp h1)).1
      cases hw : (src.transferWithdraw amt).2 with
      | false => simp [transferMoney, h0, h1, hw]
      | true => simp [transferMoney, h0, h1, hw, hd]

theorem transfer_compensation_unreachable_witness :
    (0:ℚ) < 200 ∧
    ((Account.credit (mkCredit 1900 "B" 0 5000 (15/100) (3/100))).deposit 200).2 = true :=
  ⟨by norm_num,
    (transfer_compensation_unreachable.1
      (Account.credit (mkCredit 1900 "B" 0 5000 (15/100) (3/100))) 200 (by norm_num)).1⟩



theorem savingsWithdraw_skip_balance (s : SavingsAccount) (amt : ℚ)
    (h : (s.withdraw amt true).2 = true) :
    ((s.withdraw amt true).1).base.balance = s.base.balance - amt := by
  rw [SavingsAccount.savingsWithdraw_eq] at h ⊢
  by_cases hc : amt < MIN_WITHDRAWAL_AMOUNT ∨
      s.base.balance - (amt + feeOf true) < s.min_balance ∨ s.base.balance < amt
  · rw [if_pos hc] at h
    exact absurd h (by simp)
  · rw [if_neg hc]
    show s.base.balance - (amt + feeOf true) = s.base.balance - amt
    simp [feeOf]

theorem creditWithdraw_success_balance (c : CreditAccount) (amt : ℚ)
    (h : (c.withdraw amt).2 = true) :
    ((c.withdraw amt).1).base.balance =
      c.base.balance - (amt + amt * c.cash_advance_fee) := by
  rw [CreditAccount.creditWithdraw_eq] at h ⊢
  by_cases hc : amt < MIN_CASH_ADVANCE_AMOUNT ∨
      c.base.balance - (amt + amt * c.cash_advance_fee) < -c.credit_limit
  · rw [if_pos hc] at h
    exact absurd h (by simp)
  · rw [if_neg hc]

/-- C1 (amended): for any successful transfer, the sum of the two
balances afterwards equals the sum before minus the source's transfer
shrinkage: zero when the source is a Savings account (its withdrawal is
fee-skipped), but amount * cash_advance_fee when the source is a Credit
account, whose normal withdraw charges the cash-advance fee; the sum is
therefore conserved only for Savings sources. -/
theorem transfer_balance_sum (src dst : Account) (amt : ℚ)
    (h : (transferMoney src dst amt).2.2 = TransferResult.success) :
    (transferMoney src dst amt).1.balance + (transferMoney src dst amt).2.1.balance =
      src.balance + dst.balance - src.transferShrink amt := by
  by_cases h0 : src.number = dst.number
  · simp [transferMoney, h0] at h
  · by_cases h1 : amt ≤ 0
    · simp [transferMoney, h0, h1] at h
    · cases hw : (src.transferWithdraw amt).2 with
      | false => simp [transferMoney, h0, h1, hw] at h
      | true =>
        have hd := Account.deposit_pos_parts dst amt (not_le.mp h1)
        have hres : transferMoney src dst amt =
            ((src.transferWithdraw amt).1, (dst.deposit amt).1, .success) := by
          simp [transferMoney, h0, h1, hw, hd.1]
        rw [hres]
        show (src.transferWithdraw amt).1.balance + (dst.deposit amt).1.balance = _
        rw [hd.2]
        cases src with
        | savings s =>
          have hw2 : (s.withdraw amt true).2 = true := by
            simpa [Account.transferWithdraw] using hw
          have hb := savingsWithdraw_skip_balance s amt hw2
          simp only [Account.transferWithdraw, Account.balance, Account.transferShrink, hb]
          ring
        | credit c =>
          have hw2 : (c.withdraw amt).2 = true := by
            simpa [Account.transferWithdraw] using hw
          have hb := creditWithdraw_success_balance c amt hw2
          simp only [Account.transferWithdraw, Account.balance, Account.transferShrink, hb]
          ring

/-- C1 counterexample: the transfer of Rs. 500 from a Credit account
(balance 0, limit 5000, cash-advance fee 3%) to a Savings account
(balance 1000) succeeds, yet the post-transfer balances sum to 985
(-515 + 1500), not to the pre-transfer sum 1000: the claimed
conservation equality fails for a Credit source. -/
theorem transfer_conservation_counterexample :
    (transferMoney (.credit (mkCredit 1900 "B" 0 5000 (15/100) (3/100)))
        (.savings (mkSavings 1200 "A" 1000 (4/100) 500)) 500).2.2 =
      TransferResult.success ∧
    ¬ ((transferMoney (.credit (mkCredit 1900 "B" 0 5000 (15/100) (3/100)))
          (.savings (mkSavings 1200 "A" 1000 (4/100) 500)) 500).1.balance +
        (transferMoney (.credit (mkCredit 1900 "B" 0 5000 (15/100) (3/100)))
            (.savings (mkSavings 1200 "A" 1000 (4/100) 500)) 500).2.1.balance =
       (Account.credit (mkCredit 1900 "B" 0 5000 (15/100) (3/100))).balance +
        (Account.savings (mkSavings 1200 "A" 1000 (4/100) 500)).balance) := by
  have hne : (Account.credit (mkCredit 1900 "B" 0 5000 (15/100) (3/100))).number ≠
      (Account.savings (mkSavings 1200 "A" 1000 (4/100) 500)).number := by
    simp [Account.number, mkCredit, mkSavings]
  have hw2 : ((mkCredit 1900 "B" 0 5000 (15/100) (3/100)).withdraw 500).2 = true := by
    rw [CreditAccount.creditWithdraw_eq,
      if_neg (by norm_num [mkCredit, MIN_CASH_ADVANCE_AMOUNT])]
  have hb := creditWithdraw_success_balance (mkCredit 1900 "B" 0 5000 (15/100) (3/100)) 500 hw2
  have hd := Account.deposit_pos_parts
    (.savings (mkSavings 1200 "A" 1000 (4/100) 500)) 500 (by norm_num)
  have hres : transferMoney (.credit (mkCredit 1900 "B" 0 5000 (15/100) (3/100)))
      (.savings (mkSavings 1200 "A" 1000 (4/100) 500)) 500 =
      ((Account.credit (mkCredit 1900 "B" 0 5000 (15/100) (3/100))).transferWithdraw 500
        |>.1,
       ((Account.savings (mkSavings 1200 "A" 1000 (4/100) 500)).deposit 500).1,
       .success) := by
    simp [transferMoney, hne, Account.transferWithdraw, hw2, hd.1]
  refine ⟨by rw [hres], ?_⟩
  rw [hres]
  show ((Account.credit (mkCredit 1900 "B" 0 5000 (15/100) (3/100))).transferWithdraw 500
      |>.1).balance + _ ≠ _
  rw [hd.2]
  have : ((Account.credit (mkCredit 1900 "B" 0 5000 (15/100) (3/100))).transferWithdraw 500
      |>.1).balance = ((mkCredit 1900 "B" 0 5000 (15/100) (3/100)).withdraw 500).1.base.balance := by
    simp [Account.transferWithdraw, Account.balance]
  rw [this, hb]
  norm_num [mkCredit, mkSavings, Account.balance]

theorem transfer_balance_sum_witness :
    (transferMoney (.savings (mkSavings 1200 "A" 1000 (4/100) 500))
        (.credit (mkCredit 1900 "B" 0 5000 (15/100) (3/100))) 200).2.2 =
      TransferResult.success ∧
    (transferMoney (.savings (mkSavings 1200 "A" 1000 (4/100) 500))
          (.credit (mkCredit 1900 "B" 0 5000 (15/100) (3/100))) 200).1.balance +
      (transferMoney (.savings (mkSavings 1200 "A" 1000 (4/100) 500))
          (.credit (mkCredit 1900 "B" 0 5000 (15/100) (3/100))) 200).2.1.balance =
      (Account.savings (mkSavings 1200 "A" 1000 (4/100) 500)).balance +
        (Account.credit (mkCredit 1900 "B" 0 5000 (15/100) (3/100))).balance -
        (Account.savings (mkSavings 1200 "A" 1000 (4/100) 500)).transferShrink 200 := by
  have hne : (Account.savings (mkSavings 1200 "A" 1000 (4/100) 500)).number ≠
      (Account.credit (mkCredit 1900 "B" 0 5000 (15/100) (3/100))).number := by
    simp [Account.number, mkCredit, mkSavings]
  have hw2 : ((mkSavings 1200 "A" 1000 (4/100) 500).withdraw 200 true).2 = true := by
    rw [SavingsAccount.savingsWithdraw_eq,
      if_neg (by norm_num [mkSavings, MIN_WITHDRAWAL_AMOUNT, feeOf])]
  have hd : ((Account.credit (mkCredit 1900 "B" 0 5000 (15/100) (3/100))).deposit 200).2 =
      true :=
    (Account.deposit_pos_parts (.credit (mkCredit 1900 "B" 0 5000 (15/100) (3/100))) 200
      (by norm_num)).1
  have hsucc : (transferMoney (.savings (mkSavings 1200 "A" 1000 (4/100) 500))
      (.credit (mkCredit 1900 "B" 0 5000 (15/100) (3/100))) 200).2.2 =
      TransferResult.success := by
    simp only [transferMoney, Account.transferWithdraw]
    rw [if_neg hne, if_neg (show ¬(200:ℚ) ≤ 0 by norm_num), hw2, hd]
    simp
  exact ⟨hsucc, transfer_balance_sum _ _ 200 hsucc⟩



theorem applyInterest_step (s : SavingsAccount) (hr : 0 ≤ s.interest_rate)
    (hb : 0 < s.base.balance) :
    s.applyInterest.base.balance = s.base.balance * (1 + s.interest_rate / 12) ∧
    s.applyInterest.interest_rate = s.interest_rate := by
  by_cases hz : s.interest_rate = 0
  · constructor
    · simp [SavingsAccount.applyInterest, BankAccount.deposit_eq, hz, MONTHS_PER_YEAR]
    · simp [SavingsAccount.applyInterest]
  · have hrpos : 0 < s.interest_rate := lt_of_le_of_ne hr (Ne.symm hz)
    have hipos : 0 < s.base.balance * (s.interest_rate / MONTHS_PER_YEAR) := by
      apply mul_pos hb
      rw [MONTHS_PER_YEAR]
      positivity
    constructor
    · show ((s.base.deposit (s.base.balance * (s.interest_rate / MONTHS_PER_YEAR))).1).balance = _
      rw [BankAccount.deposit_eq, if_neg (not_le.mpr hipos)]
      show s.base.balance + s.base.balance * (s.interest_rate / MONTHS_PER_YEAR) = _
      rw [MONTHS_PER_YEAR]
      ring
    · simp [SavingsAccount.applyInterest]

/-- C8 (amended): for a Savings account with a non-negative annual rate
(the claim is false for negative rates), a positive balance B becomes
exactly B * (1 + r/12) after one interest application and
B * (1 + r/12)^2 after a second (the batch compounds, it is not
idempotent), while a non-positive balance yields non-positive interest,
which the deposit precondition rejects, leaving the account unchanged. -/
theorem savings_interest_spec (s : SavingsAccount) (hr : 0 ≤ s.interest_rate) :
    (0 < s.base.balance →
      s.applyInterest.base.balance = s.base.balance * (1 + s.interest_rate / 12) ∧
      s.applyInterest.applyInterest.base.balance =
        s.base.balance * (1 + s.interest_rate / 12) ^ 2) ∧
    (s.base.balance ≤ 0 → s.applyInterest = s) := by
  constructor
  · intro hb
    have h1 := applyInterest_step s hr hb
    have hb2 : 0 < s.applyInterest.base.balance := by
      rw [h1.1]
      refine mul_pos hb ?_
      have := div_nonneg hr (by norm_num : (0:ℚ) ≤ 12)
      linarith
    have hr2 : 0 ≤ s.applyInterest.interest_rate := by
      rw [h1.2]
      exact hr
    have h2 := applyInterest_step s.applyInterest hr2 hb2
    refine ⟨h1.1, ?_⟩
    rw [h2.1, h1.1, h1.2]
    ring
  · intro hb
    have hile : s.base.balance * (s.interest_rate / MONTHS_PER_YEAR) ≤ 0 := by
      refine mul_nonpos_iff.mpr (Or.inr ⟨hb, ?_⟩)
      rw [MONTHS_PER_YEAR]
      exact div_nonneg hr (by norm_num)
    simp [SavingsAccount.applyInterest, BankAccount.deposit_eq, hile]

/-- C8 counterexample: with a negative annual rate (-12%) and balance
-100, the computed interest is (-100) * ((-12/100)/12) = +1, which the
deposit accepts, so the balance changes to -99: the claim's assertion
that a non-positive balance always yields non-positive interest and an
unchanged balance is false. -/
theorem savings_interest_claim_counterexample :
    (⟨⟨1203, "Y", -100, []⟩, -(12/100), 500⟩ : SavingsAccount).base.balance ≤ 0 ∧
    (⟨⟨1203, "Y", -100, []⟩, -(12/100), 500⟩ : SavingsAccount).applyInterest.base.balance ≠
      (⟨⟨1203, "Y", -100, []⟩, -(12/100), 500⟩ : SavingsAccount).base.balance := by
  constructor
  · norm_num
  · norm_num [SavingsAccount.applyInterest, BankAccount.deposit_eq, MONTHS_PER_YEAR]

theorem savings_interest_spec_witness :
    (0:ℚ) ≤ (mkSavings 1200 "A" 1000 (4/100) 500).interest_rate ∧
    0 < (mkSavings 1200 "A" 1000 (4/100) 500).base.balance ∧
    (mkSavings 1200 "A" 1000 (4/100) 500).applyInterest.base.balance =
      (mkSavings 1200 "A" 1000 (4/100) 500).base.balance *
        (1 + (mkSavings 1200 "A" 1000 (4/100) 500).interest_rate / 12) :=
  ⟨by norm_num [mkSavings], by norm_num [mkSavings],
    ((savings_interest_spec (mkSavings 1200 "A" 1000 (4/100) 500)
        (by norm_num [mkSavings])).1 (by norm_num [mkSavings])).1⟩



theorem counter_le_regStep (s : Registry) (e : RegEvent) (v : Variant) :
    s.counter v ≤ (regStep s e).counter v := by
  cases e with
  | fresh w => cases w <;> cases v <;> simp [regStep, Registry.counter]
  | reload w n =>
    cases w <;> cases v <;> simp [regStep, Registry.counter] <;> split_ifs <;> omega

theorem regInv_step (s : Registry) (e : RegEvent) (h : RegInv s) :
    RegInv (regStep s e) := by
  obtain ⟨h1, h2⟩ := h
  have hmono := counter_le_regStep s e
  cases e with
  | fresh v =>
    constructor
    · intro p hp hf
      cases v with
      | savings =>
        rcases List.mem_append.mp hp with hp | hp
        · have hlt := h1 p hp hf
          have := hmono p.variant
          omega
        · have hp' : p = ⟨.savings, s.savingsNext, true⟩ := by simpa using hp
          subst hp'
          simp [regStep, Registry.counter]
      | credit =>
        rcases List.mem_append.mp hp with hp | hp
        · have hlt := h1 p hp hf
          have := hmono p.variant
          omega
        · have hp' : p = ⟨.credit, s.creditNext, true⟩ := by simpa using hp
          subst hp'
          simp [regStep, Registry.counter]
    · cases v with
      | savings =>
        show (s.accounts ++ [(⟨.savings, s.savingsNext, true⟩ : AcctRef)]).Pairwise _
        rw [List.pairwise_append]
        refine ⟨h2, List.pairwise_singleton _ _, ?_⟩
        intro p hp q hq
        have hq' : q = ⟨.savings, s.savingsNext, true⟩ := by simpa using hq
        subst hq'
        intro hpf _ hv
        have hlt := h1 p hp hpf
        rw [hv] at hlt
        simp only [Registry.counter] at hlt
        exact fun hcontra => absurd (hcontra ▸ hlt) (lt_irrefl _)
      | credit =>
        show (s.accounts ++ [(⟨.credit, s.creditNext, true⟩ : AcctRef)]).Pairwise _
        rw [List.pairwise_append]
        refine ⟨h2, List.pairwise_singleton _ _, ?_⟩
        intro p hp q hq
        have hq' : q = ⟨.credit, s.creditNext, true⟩ := by simpa using hq
        subst hq'
        intro hpf _ hv
        have hlt := h1 p hp hpf
        rw [hv] at hlt
        simp only [Registry.counter] at hlt
        exact fun hcontra => absurd (hcontra ▸ hlt) (lt_irrefl _)
  | reload v n =>
    constructor
    · intro p hp hf
      cases v with
      | savings =>
        rcases List.mem_append.mp hp with hp | hp
        · have hlt := h1 p hp hf
          have := hmono p.variant
          omega
        · have hp' : p = ⟨.savings, n, false⟩ := by simpa using hp
          subst hp'
          exact absurd hf (by simp)
      | credit =>
        rcases List.mem_append.mp hp with hp | hp
        · have hlt := h1 p hp hf
          have := hmono p.variant
          omega
        · have hp' : p = ⟨.credit, n, false⟩ := by simpa using hp
          subst hp'
          exact absurd hf (by simp)
    · cases v with
      | savings =>
        show (s.accounts ++ [(⟨.savings, n, false⟩ : AcctRef)]).Pairwise _
        rw [List.pairwise_append]
        refine ⟨h2, List.pairwise_singleton _ _, ?_⟩
        intro p hp q hq
        have hq' : q = ⟨.savings, n, false⟩ := by simpa using hq
        subst hq'
        intro _ hqf
        exact absurd hqf (by simp)
      | credit =>
        show (s.accounts ++ [(⟨.credit, n, false⟩ : AcctRef)]).Pairwise _
        rw [List.pairwise_append]
        refine ⟨h2, List.pairwise_singleton _ _, ?_⟩
        intro p hp q hq
        have hq' : q = ⟨.credit, n, false⟩ := by simpa using hq
        subst hq'
        intro _ hqf
        exact absurd hqf (by simp)

theorem regInv_foldl (es : List RegEvent) :
    ∀ s : Registry, RegInv s → RegInv (es.foldl regStep s) := by
  induction es with
  | nil => exact fun s h => h
  | cons e rest ih => exact fun s h => ih (regStep s e) (regInv_step s e h)

/-- C5 (amended): in every state reachable by any interleaved sequence
of fresh creations and reloads, every freshly created account's number
is strictly below its variant's counter, and freshly created accounts
of the same variant have pairwise distinct numbers.  Uniqueness does
NOT hold for the whole collection: a reloaded number can duplicate an
existing one, and the per-variant counters let a Savings number collide
with a Credit number. -/
theorem registry_fresh_distinct (es : List RegEvent) :
    (∀ p ∈ (runRegistry es).accounts, p.freshlyCreated = true →
        p.number < (runRegistry es).counter p.variant) ∧
    (runRegistry es).accounts.Pairwise
      (fun p q => p.freshlyCreated = true → q.freshlyCreated = true →
        p.variant = q.variant → p.number ≠ q.number) :=
  regInv_foldl es initRegistry ⟨by simp [initRegistry], by simp [initRegistry]⟩

/-- C5 counterexample: reloading a Savings account with the explicit
number 1900 and then creating a fresh Credit account (which takes the
untouched Credit counter value 1900) yields two accounts with the same
number, so the collection's numbers are not pairwise distinct. -/
theorem registry_unique_counterexample :
    ¬ pairwiseDistinctNumbers
        (runRegistry [.reload .savings 1900, .fresh .credit]).accounts := by
  decide

theorem registry_fresh_distinct_witness :
    ((⟨Variant.savings, 1200, true⟩ : AcctRef) ∈
        (runRegistry [RegEvent.fresh .savings, RegEvent.fresh .savings]).accounts ∧
      (⟨Variant.savings, 1200, true⟩ : AcctRef).freshlyCreated = true) ∧
    (1200 : ℤ) <
      (runRegistry [RegEvent.fresh .savings, RegEvent.fresh .savings]).counter
        Variant.savings :=
  ⟨⟨by decide, by decide⟩,
    (registry_fresh_distinct [RegEvent.fresh .savings, RegEvent.fresh .savings]).1
      ⟨Variant.savings, 1200, true⟩ (by decide) (by decide)⟩



theorem ledgerInv_applyOps_witness :
    ledgerInv 0 (Account.savings (mkSavings 1204 "L" 1000 (4/100) 500)) ∧
    ledgerInv 0 ((Account.savings (mkSavings 1204 "L" 1000 (4/100) 500)).applyOps
      [.dep 500, .wd 100 false, .monthEnd]) := by
  have h0 : ledgerInv 0 (Account.savings (mkSavings 1204 "L" 1000 (4/100) 500)) := by
    constructor
    · simp [Account.ledger, mkSavings, ledgerChain]
    · simp [Account.ledger, Account.balance, mkSavings, lastRecorded]
  exact ⟨h0, ledgerInv_applyOps [.dep 500, .wd 100 false, .monthEnd] 0 _ h0⟩


end Banking
